import Mathlib

/-!
Verification of the training orchestration of the Glow-PyTorch repository
(`train.py`): the MMD energy loss, its scale matrix, the likelihood loss
functions, seeding, output-directory validation and checkpoint rotation.
Tensors are shallowly embedded as real-valued functions over `Fin`; Python
exceptions are the error side of `Except`.
-/

namespace GlowTrain

/-- Python exception values that the script (or a library call it makes) can
raise on the paths modelled here. -/
inductive PyErr : Type where
  | valueError
  | unboundLocalError
  | fileExistsError
  | notADirectoryError
  | runtimeError
  deriving DecidableEq, Repr

/-- A rank-0 (scalar), rank-1 or rank-2 tensor of reals, the shapes the loss
functions of `train.py` produce. -/
inductive Tensor : Type where
  | scalar : ℝ → Tensor
  | vec : {n : ℕ} → (Fin n → ℝ) → Tensor
  | mat : {m n : ℕ} → (Fin m → Fin n → ℝ) → Tensor

/-- Elementwise application of a real function, modelling a broadcast torch
operation such as `torch.sqrt(t + 1e-5)`. -/
def Tensor.map (f : ℝ → ℝ) : Tensor → Tensor
  | .scalar r => .scalar (f r)
  | .vec v => .vec (fun i => f (v i))
  | .mat w => .mat (fun i j => f (w i j))

/-- Every entry of the tensor is non-negative. -/
def Tensor.Nonneg : Tensor → Prop
  | .scalar r => 0 ≤ r
  | .vec v => ∀ i, 0 ≤ v i
  | .mat w => ∀ i j, 0 ≤ w i j

/-- Scalar multiplication `a * t`, broadcast over the tensor. -/
def tensorSMul (a : ℝ) : Tensor → Tensor
  | .scalar r => .scalar (a * r)
  | .vec v => .vec (fun i => a * v i)
  | .mat w => .mat (fun i j => a * w i j)

/-- Addition of two tensors of the same shape, the only case the modelled
code exercises; torch would broadcast or raise `RuntimeError` on other shape
pairs, none of which occur here. -/
def tensorAdd : Tensor → Tensor → Except PyErr Tensor
  | .scalar a, .scalar b => .ok (.scalar (a + b))
  | .vec (n := n) v, .vec (n := m) w =>
      if h : n = m then .ok (.vec (fun i => v (Fin.cast h.symm i) + w i))
      else .error .runtimeError
  | _, _ => .error .runtimeError

/-- A Python dict of named losses, written by prepending so that the most
recent assignment is the one `lookup` finds. -/
abbrev Losses : Type := List (String × Tensor)

/-- Unfolding lemma: binding an error short-circuits. -/
theorem except_bind_error {ε α β : Type _} (e : ε) (f : α → Except ε β) :
    (Except.error e >>= f) = Except.error e := rfl

/-- Unfolding lemma: binding a success applies the continuation. -/
theorem except_bind_ok {ε α β : Type _} (a : α) (f : α → Except ε β) :
    ((Except.ok a : Except ε α) >>= f) = f a := rfl

/-- Unfolding lemma: `throw` on `Except` is `Except.error`. -/
theorem except_throw {ε α : Type _} (e : ε) :
    (throw e : Except ε α) = Except.error e := rfl

/-- Unfolding lemma: mapping over an error leaves it. -/
theorem except_map_error {ε α β : Type _} (f : α → β) (e : ε) :
    Except.map f (Except.error e : Except ε α) = Except.error e := rfl

/-- `torch.mean` over a rank-1 tensor. -/
noncomputable def torchMean {n : ℕ} (v : Fin n → ℝ) : ℝ := (∑ i, v i) / n

/-- Model of `makeScaleMatrix` (train.py lines 74-79): the column vector
`cat([ones(num_gen,1)/num_gen, -ones(num_orig,1)/num_orig])`, with the
trailing singleton dimension dropped. -/
noncomputable def makeScaleMatrix (num_gen num_orig : ℕ) :
    Fin (num_gen + num_orig) → ℝ :=
  Fin.append (fun _ => 1 / (num_gen : ℝ)) (fun _ => -(1 / (num_orig : ℝ)))

/-- C10: for positive `N = num_gen` and `M = num_orig`, `makeScaleMatrix N M`
is the vector of length `N + M` whose first `N` entries are `1/N`, whose last
`M` entries are `-1/M`, and whose entries sum to zero. -/
theorem makeScaleMatrix_entries_sum_zero (N M : ℕ) (hN : 0 < N) (hM : 0 < M) :
    (∀ j : Fin N, makeScaleMatrix N M (Fin.castAdd M j) = 1 / (N : ℝ)) ∧
    (∀ j : Fin M, makeScaleMatrix N M (Fin.natAdd N j) = -(1 / (M : ℝ))) ∧
    ∑ i, makeScaleMatrix N M i = 0 := by
  refine ⟨fun j => ?_, fun j => ?_, ?_⟩
  · simp [makeScaleMatrix]
  · simp [makeScaleMatrix]
  · have hN0 : (N : ℝ) ≠ 0 := Nat.cast_ne_zero.mpr hN.ne'
    have hM0 : (M : ℝ) ≠ 0 := Nat.cast_ne_zero.mpr hM.ne'
    rw [Fin.sum_univ_add]
    simp only [makeScaleMatrix, Fin.append_left, Fin.append_right,
      Finset.sum_const, Finset.card_univ, Fintype.card_fin, nsmul_eq_mul]
    field_simp

/-- Row concatenation `X = torch.cat([gen_x, x], dim=0)` followed by
`X.flatten(1)` (train.py lines 85-90): the first `N` rows are the generated
batch, the next `M` the data batch. Batches are already modelled flat, so the
flatten is the identity and `d` is the flattened feature dimension. -/
def catRows {N M d : ℕ} (gen_x : Fin N → Fin d → ℝ) (x : Fin M → Fin d → ℝ) :
    Fin (N + M) → Fin d → ℝ :=
  Fin.append gen_x x

/-- The exponent matrix of `compute_loss_energy` before clipping (train.py
lines 93-101): `(XX - 0.5*X2 - 0.5*X2^T) / sqrt(d)`, where `XX` is the Gram
matrix of the rows of `X` and `X2` the column of their squared norms. -/
noncomputable def exponentMat {n d : ℕ} (X : Fin n → Fin d → ℝ) :
    Fin n → Fin n → ℝ :=
  fun i j =>
    ((∑ k, X i k * X j k) - 0.5 * (∑ k, X i k * X i k)
        - 0.5 * (∑ k, X j k * X j k)) / Real.sqrt d

/-- The exponent matrix after `torch.clip(exponent, -1e4, 1e4)` (train.py
line 103). -/
noncomputable def clipExponent {n d : ℕ} (X : Fin n → Fin d → ℝ) :
    Fin n → Fin n → ℝ :=
  fun i j => min (max (exponentMat X i j) (-10000)) 10000

/-- The default bandwidth list `sigma = [2, 5, 10, 20, 40, 80]` of
`compute_loss_energy` (train.py line 82). -/
noncomputable def defaultSigma : List ℝ := [2, 5, 10, 20, 40, 80]

/-- The per-row loss vector of `compute_loss_energy` accumulated over the
bandwidths (train.py lines 105-116): entry `i` is the sum over `sigma` of
`sum_j (s i * s j) * exp(1/sigma * exponent i j)`, with `s` the scale vector
and `S = s * s^T` its outer product. -/
noncomputable def energyLossVec {N M d : ℕ} (x : Fin M → Fin d → ℝ)
    (gen_x : Fin N → Fin d → ℝ) (sigma : List ℝ) : Fin (N + M) → ℝ :=
  fun i =>
    (sigma.map (fun σ => ∑ j,
      makeScaleMatrix N M i * makeScaleMatrix N M j *
        Real.exp (1 / σ * clipExponent (catRows gen_x x) i j))).sum

/-- Model of `compute_loss_energy` (train.py lines 82-128): reduce the
per-row loss vector according to `reduction` (raising `ValueError` on any
other string) and return `torch.sqrt(final_loss + 1e-5)`. -/
noncomputable def compute_loss_energy {N M d : ℕ} (x : Fin M → Fin d → ℝ)
    (gen_x : Fin N → Fin d → ℝ) (sigma : List ℝ) (reduction : String) :
    Except PyErr Tensor :=
  let loss := energyLossVec x gen_x sigma
  let final_loss : Except PyErr Tensor :=
    if reduction = "mean" then .ok (.scalar (torchMean loss))
    else if reduction = "sum" then .ok (.scalar (∑ i, loss i))
    else if reduction = "none" then .ok (.vec loss)
    else .error .valueError
  final_loss.map (Tensor.map (fun t => Real.sqrt (t + 1 / 100000)))

/-- C2: for each accepted reduction (`"mean"`, `"sum"`, `"none"`),
`compute_loss_energy` returns the epsilon-stabilised square root
`sqrt(final_loss + 1e-5)` of the reduced per-row kernel sums, and every entry
of the returned tensor is non-negative. -/
theorem compute_loss_energy_nonneg {N M d : ℕ} (x : Fin M → Fin d → ℝ)
    (gen_x : Fin N → Fin d → ℝ) (sigma : List ℝ) (reduction : String)
    (hred : reduction = "mean" ∨ reduction = "sum" ∨ reduction = "none") :
    ∃ out : Tensor,
      compute_loss_energy x gen_x sigma reduction = Except.ok out ∧
      out = Tensor.map (fun t => Real.sqrt (t + 1 / 100000))
        (if reduction = "mean" then
          Tensor.scalar (torchMean (energyLossVec x gen_x sigma))
        else if reduction = "sum" then
          Tensor.scalar (∑ i, energyLossVec x gen_x sigma i)
        else Tensor.vec (energyLossVec x gen_x sigma)) ∧
      out.Nonneg := by
  rcases hred with h | h | h <;> subst h
  · refine ⟨_, rfl, ?_, ?_⟩
    · simp [compute_loss_energy, Except.map]
    · simp [compute_loss_energy, Except.map, Tensor.map, Tensor.Nonneg,
        Real.sqrt_nonneg]
  · refine ⟨_, rfl, ?_, ?_⟩
    · simp [compute_loss_energy, Except.map]
    · simp [compute_loss_energy, Except.map, Tensor.map, Tensor.Nonneg,
        Real.sqrt_nonneg]
  · refine ⟨_, rfl, ?_, ?_⟩
    · simp [compute_loss_energy, Except.map]
    · simp only [compute_loss_energy, Except.map, Tensor.map, Tensor.Nonneg]
      intro i
      exact Real.sqrt_nonneg _

/-- Evaluating a two-block concatenation with the blocks swapped at a
position is evaluating the original concatenation at the block-swapped
position `finAddFlip i`. -/
theorem append_comp_finAddFlip {α : Type _} {N M : ℕ} (a : Fin N → α)
    (b : Fin M → α) :
    Fin.append b a = fun i => Fin.append a b (finAddFlip i) := by
  funext i
  induction i using Fin.addCases with
  | left j => simp [finAddFlip_apply_castAdd]
  | right j => simp [finAddFlip_apply_natAdd]

/-- Swapping the two batch sizes negates the scale entry carried by each row:
the entry of `makeScaleMatrix M N` at a position is minus the entry of
`makeScaleMatrix N M` at the block-swapped position of the same row. -/
theorem makeScaleMatrix_flip (N M : ℕ) :
    ∀ i : Fin (M + N), makeScaleMatrix M N i
      = -(makeScaleMatrix N M (finAddFlip i)) := by
  intro i
  induction i using Fin.addCases with
  | left j => simp [makeScaleMatrix, finAddFlip_apply_castAdd]
  | right j => simp [makeScaleMatrix, finAddFlip_apply_natAdd]

/-- The clipped exponent matrix of the swapped call agrees with the original
one at block-swapped row pairs. -/
theorem clipExponent_flip {N M d : ℕ} (x : Fin M → Fin d → ℝ)
    (gen_x : Fin N → Fin d → ℝ) (i j : Fin (M + N)) :
    clipExponent (catRows x gen_x) i j
      = clipExponent (catRows gen_x x) (finAddFlip i) (finAddFlip j) := by
  have hX : catRows x gen_x = fun i' => catRows gen_x x (finAddFlip i') :=
    append_comp_finAddFlip gen_x x
  rw [hX]
  rfl

/-- The per-row loss vector of the swapped call is the original loss vector
read at the block-swapped position. -/
theorem energyLossVec_flip {N M d : ℕ} (x : Fin M → Fin d → ℝ)
    (gen_x : Fin N → Fin d → ℝ) (sigma : List ℝ) (i : Fin (M + N)) :
    energyLossVec gen_x x sigma i = energyLossVec x gen_x sigma (finAddFlip i) := by
  have hfg : (fun σ : ℝ => ∑ j, makeScaleMatrix M N i * makeScaleMatrix M N j *
        Real.exp (1 / σ * clipExponent (catRows x gen_x) i j))
      = (fun σ : ℝ => ∑ j, makeScaleMatrix N M (finAddFlip i) * makeScaleMatrix N M j *
        Real.exp (1 / σ * clipExponent (catRows gen_x x) (finAddFlip i) j)) := by
    funext σ
    calc (∑ j, makeScaleMatrix M N i * makeScaleMatrix M N j *
          Real.exp (1 / σ * clipExponent (catRows x gen_x) i j))
        = ∑ j, makeScaleMatrix N M (finAddFlip i) * makeScaleMatrix N M (finAddFlip j) *
            Real.exp (1 / σ *
              clipExponent (catRows gen_x x) (finAddFlip i) (finAddFlip j)) := by
          refine Finset.sum_congr rfl fun j _ => ?_
          rw [makeScaleMatrix_flip N M i, makeScaleMatrix_flip N M j,
            clipExponent_flip x gen_x i j]
          ring
      _ = ∑ j, makeScaleMatrix N M (finAddFlip i) * makeScaleMatrix N M j *
            Real.exp (1 / σ * clipExponent (catRows gen_x x) (finAddFlip i) j) :=
          Equiv.sum_comp finAddFlip (fun j' =>
            makeScaleMatrix N M (finAddFlip i) * makeScaleMatrix N M j' *
              Real.exp (1 / σ * clipExponent (catRows gen_x x) (finAddFlip i) j'))
  unfold energyLossVec
  rw [hfg]

/-- Summed over all rows, the loss vector is invariant under swapping the two
batches. -/
theorem energyLossVec_sum_swap {N M d : ℕ} (x : Fin M → Fin d → ℝ)
    (gen_x : Fin N → Fin d → ℝ) (sigma : List ℝ) :
    ∑ i, energyLossVec gen_x x sigma i = ∑ i, energyLossVec x gen_x sigma i :=
  calc ∑ i, energyLossVec gen_x x sigma i
      = ∑ i, energyLossVec x gen_x sigma (finAddFlip i) :=
        Finset.sum_congr rfl fun i _ => energyLossVec_flip x gen_x sigma i
    _ = ∑ i, energyLossVec x gen_x sigma i := Equiv.sum_comp finAddFlip _

/-- C3: swapping the two arguments of `compute_loss_energy` negates the scale
entry carried by each concatenated row (read through the block-swap
`finAddFlip`), leaves the scale-product matrix `S = s * s^T` unchanged on
each row pair, and therefore the loss is symmetric for the reductions
`"mean"` and `"sum"`: both swapped calls return the same tensor. Proved for
all row counts, in particular for batches of equal row count. -/
theorem compute_loss_energy_swap_symm {N M d : ℕ} (x : Fin M → Fin d → ℝ)
    (gen_x : Fin N → Fin d → ℝ) (sigma : List ℝ) :
    (∀ i, makeScaleMatrix M N i = -(makeScaleMatrix N M (finAddFlip i))) ∧
    (∀ i j, makeScaleMatrix M N i * makeScaleMatrix M N j
        = makeScaleMatrix N M (finAddFlip i) * makeScaleMatrix N M (finAddFlip j)) ∧
    compute_loss_energy gen_x x sigma "mean"
        = compute_loss_energy x gen_x sigma "mean" ∧
    compute_loss_energy gen_x x sigma "sum"
        = compute_loss_energy x gen_x sigma "sum" := by
  refine ⟨makeScaleMatrix_flip N M, fun i j => ?_, ?_, ?_⟩
  · rw [makeScaleMatrix_flip N M i, makeScaleMatrix_flip N M j]
    ring
  · have hmean : torchMean (energyLossVec gen_x x sigma)
        = torchMean (energyLossVec x gen_x sigma) := by
      unfold torchMean
      rw [energyLossVec_sum_swap x gen_x sigma, Nat.add_comm M N]
    simp [compute_loss_energy, Except.map, hmean]
  · have hsum := energyLossVec_sum_swap x gen_x sigma
    simp [compute_loss_energy, Except.map, hsum]

/-- The algebraic identity behind the exponent matrix: each pre-clip entry is
minus the squared distance of the two rows, over `2 * sqrt d`. -/
theorem exponentMat_eq_neg_dist {n d : ℕ} (X : Fin n → Fin d → ℝ) (i j : Fin n) :
    exponentMat X i j = -(∑ k, (X i k - X j k) ^ 2) / (2 * Real.sqrt d) := by
  unfold exponentMat
  have hexp : ∑ k, (X i k - X j k) ^ 2
      = (∑ k, X i k * X i k) - 2 * (∑ k, X i k * X j k) + ∑ k, X j k * X j k := by
    rw [Finset.mul_sum, ← Finset.sum_sub_distrib, ← Finset.sum_add_distrib]
    exact Finset.sum_congr rfl fun k _ => by ring
  rw [hexp]
  ring

/-- Every pre-clip exponent entry is non-positive. -/
theorem exponentMat_nonpos {n d : ℕ} (X : Fin n → Fin d → ℝ) (i j : Fin n) :
    exponentMat X i j ≤ 0 := by
  rw [exponentMat_eq_neg_dist]
  refine div_nonpos_iff.mpr (Or.inr ⟨?_, ?_⟩)
  · exact neg_nonpos.mpr (Finset.sum_nonneg fun k _ => sq_nonneg _)
  · positivity

/-- Every clipped exponent entry is non-positive: the clip only raises a
non-positive entry to `-1e4` or leaves it. -/
theorem clipExponent_nonpos {n d : ℕ} (X : Fin n → Fin d → ℝ) (i j : Fin n) :
    clipExponent X i j ≤ 0 :=
  le_trans (min_le_left _ _) (max_le (exponentMat_nonpos X i j) (by norm_num))

/-- C7: in `compute_loss_energy`, after the clip every exponent entry lies in
`[-1e4, 1e4]`; every pre-clip entry equals `-dist^2 / (2 * sqrt d)` for the
squared row distance `dist^2` and is non-positive; hence every kernel value
`exp(1/sigma * exponent)` at a default bandwidth lies in `(0, 1]`. -/
theorem exponent_clip_kernel_bounds {N M d : ℕ} (x : Fin M → Fin d → ℝ)
    (gen_x : Fin N → Fin d → ℝ) :
    (∀ i j, -10000 ≤ clipExponent (catRows gen_x x) i j ∧
        clipExponent (catRows gen_x x) i j ≤ 10000) ∧
    (∀ i j, exponentMat (catRows gen_x x) i j
          = -(∑ k, (catRows gen_x x i k - catRows gen_x x j k) ^ 2)
            / (2 * Real.sqrt d) ∧
        exponentMat (catRows gen_x x) i j ≤ 0) ∧
    (∀ σ ∈ defaultSigma, ∀ i j,
        0 < Real.exp (1 / σ * clipExponent (catRows gen_x x) i j) ∧
        Real.exp (1 / σ * clipExponent (catRows gen_x x) i j) ≤ 1) := by
  refine ⟨fun i j => ⟨?_, min_le_right _ _⟩,
    fun i j => ⟨exponentMat_eq_neg_dist _ i j, exponentMat_nonpos _ i j⟩,
    fun σ hσ i j => ⟨Real.exp_pos _, ?_⟩⟩
  · exact le_min (le_max_right _ _) (by norm_num)
  · have hσpos : (0 : ℝ) < σ := by
      simp only [defaultSigma, List.mem_cons, List.not_mem_nil, or_false] at hσ
      rcases hσ with rfl | rfl | rfl | rfl | rfl | rfl <;> norm_num
    refine Real.exp_le_one_iff.mpr ?_
    have hinv : (0 : ℝ) ≤ 1 / σ := by positivity
    exact mul_nonpos_iff.mpr (Or.inl ⟨hinv, clipExponent_nonpos _ i j⟩)

/-- A concrete one-image, one-feature batch of zeros, used to instantiate
witnesses. -/
noncomputable def zeroBatch : Fin 1 → Fin 1 → ℝ := fun _ _ => 0

/-- Witness for C2 at two concrete zero batches with the default bandwidths
and reduction `"mean"`. -/
theorem compute_loss_energy_nonneg_witness :
    ∃ out : Tensor,
      compute_loss_energy zeroBatch zeroBatch defaultSigma "mean"
          = Except.ok out ∧
      out = Tensor.map (fun t => Real.sqrt (t + 1 / 100000))
        (if "mean" = "mean" then
          Tensor.scalar (torchMean (energyLossVec zeroBatch zeroBatch defaultSigma))
        else if "mean" = "sum" then
          Tensor.scalar (∑ i, energyLossVec zeroBatch zeroBatch defaultSigma i)
        else Tensor.vec (energyLossVec zeroBatch zeroBatch defaultSigma)) ∧
      out.Nonneg :=
  compute_loss_energy_nonneg zeroBatch zeroBatch defaultSigma "mean" (Or.inl rfl)

/-- Witness for C10 at `N = M = 1`. -/
theorem makeScaleMatrix_entries_sum_zero_witness :
    (∀ j : Fin 1, makeScaleMatrix 1 1 (Fin.castAdd 1 j) = 1 / ((1 : ℕ) : ℝ)) ∧
    (∀ j : Fin 1, makeScaleMatrix 1 1 (Fin.natAdd 1 j) = -(1 / ((1 : ℕ) : ℝ))) ∧
    ∑ i, makeScaleMatrix 1 1 i = 0 :=
  makeScaleMatrix_entries_sum_zero 1 1 (by decide) (by decide)

/-- Model of `compute_loss` (train.py lines 42-50): the `losses` dict is
bound only for reductions `"mean"` and `"none"`, with
`total_loss = losses["nll"]` added afterwards; for any other reduction that
later line reads the never-assigned local `losses`, which raises
`UnboundLocalError`. -/
noncomputable def compute_loss {B : ℕ} (nll : Fin B → ℝ) (reduction : String) :
    Except PyErr Losses :=
  if reduction = "mean" then
    .ok [("total_loss", Tensor.scalar (torchMean nll)),
         ("nll", Tensor.scalar (torchMean nll))]
  else if reduction = "none" then
    .ok [("total_loss", Tensor.vec nll), ("nll", Tensor.vec nll)]
  else
    .error PyErr.unboundLocalError

/-- `torch.sigmoid`. -/
noncomputable def sigmoid (z : ℝ) : ℝ := 1 / (1 + Real.exp (-z))

/-- The elementwise value of
`torch.nn.functional.binary_cross_entropy_with_logits`:
`-(y*log(sigmoid z) + (1-y)*log(1-sigmoid z))` in closed form. -/
noncomputable def bceWithLogitsEntry (z y : ℝ) : ℝ :=
  (1 - y) * z + Real.log (1 + Real.exp (-z))

/-- Model of `F.binary_cross_entropy_with_logits(input, target, reduction)`:
the library validates the reduction string itself and raises `ValueError` for
a string outside "none", "mean", "sum". -/
noncomputable def F_binary_cross_entropy_with_logits {B C : ℕ}
    (input : Fin B → Fin C → ℝ) (target : Fin B → Fin C → ℝ)
    (reduction : String) : Except PyErr Tensor :=
  if reduction = "mean" then
    .ok (.scalar ((∑ b, ∑ c, bceWithLogitsEntry (input b c) (target b c))
      / ((B : ℝ) * (C : ℝ))))
  else if reduction = "sum" then
    .ok (.scalar (∑ b, ∑ c, bceWithLogitsEntry (input b c) (target b c)))
  else if reduction = "none" then
    .ok (.mat (fun b c => bceWithLogitsEntry (input b c) (target b c)))
  else .error PyErr.valueError

/-- Model of `torch.argmax(y, dim=1)`: for each row, an index at which the
row is maximal (torch does not specify which index is picked on ties). -/
noncomputable def torchArgmax {B C : ℕ} [NeZero C] (y : Fin B → Fin C → ℝ)
    (b : Fin B) : Fin C :=
  (Finset.exists_max_image Finset.univ (y b)
    ⟨⟨0, Nat.pos_of_ne_zero (NeZero.ne C)⟩, Finset.mem_univ _⟩).choose

/-- Per-row cross entropy `-log softmax(y_logits)[target]` of
`torch.nn.functional.cross_entropy` with integer class targets. -/
noncomputable def crossEntropyRow {B C : ℕ} (y_logits : Fin B → Fin C → ℝ)
    (target : Fin B → Fin C) (b : Fin B) : ℝ :=
  Real.log (∑ c, Real.exp (y_logits b c)) - y_logits b (target b)

/-- Model of `F.cross_entropy(y_logits, target, reduction)`: the library
validates the reduction string itself and raises `ValueError` for a string
outside "none", "mean", "sum". -/
noncomputable def F_cross_entropy {B C : ℕ} (y_logits : Fin B → Fin C → ℝ)
    (target : Fin B → Fin C) (reduction : String) : Except PyErr Tensor :=
  if reduction = "mean" then
    .ok (.scalar (torchMean (crossEntropyRow y_logits target)))
  else if reduction = "sum" then
    .ok (.scalar (∑ b, crossEntropyRow y_logits target b))
  else if reduction = "none" then
    .ok (.vec (crossEntropyRow y_logits target))
  else .error PyErr.valueError

/-- Model of `compute_loss_y` (train.py lines 53-72). Lines 54-57 bind the
`losses` dict only for reductions `"mean"` and `"none"`; lines 59-67 compute
the classification loss (`binary_cross_entropy_with_logits` on the sigmoided
logits when `multiClass`, else `cross_entropy` against `argmax(y, dim=1)`),
where the library call validates the reduction string first; line 69 then
writes into `losses`, raising `UnboundLocalError` when it was never bound;
line 70 sets `total_loss = losses["nll"] + y_weight * loss_classes`. -/
noncomputable def compute_loss_y {B C : ℕ} [NeZero C] (nll : Fin B → ℝ)
    (y_logits : Fin B → Fin C → ℝ) (y_weight : ℝ) (y : Fin B → Fin C → ℝ)
    (multiClass : Bool) (reduction : String) : Except PyErr Losses := do
  let nllT : Option Tensor :=
    if reduction = "mean" then some (.scalar (torchMean nll))
    else if reduction = "none" then some (.vec nll)
    else none
  let loss_classes ←
    if multiClass then
      F_binary_cross_entropy_with_logits
        (fun b c => sigmoid (y_logits b c)) y reduction
    else
      F_cross_entropy y_logits (torchArgmax y) reduction
  match nllT with
  | none => throw PyErr.unboundLocalError
  | some nllT => do
      let total ← tensorAdd nllT (tensorSMul y_weight loss_classes)
      pure [("total_loss", total), ("loss_classes", loss_classes),
            ("nll", nllT)]

/-- The pieces of the Glow model that the `step` closure uses, kept abstract:
the forward pass producing per-image negative log-likelihoods and class
logits, and the reverse pass sampling a batch at a given temperature. -/
structure GlowModel (B C dim : ℕ) where
  nllOf : (Fin B → Fin dim → ℝ) → (Fin B → Fin C → ℝ) → (Fin B → ℝ)
  logitsOf : (Fin B → Fin dim → ℝ) → (Fin B → Fin C → ℝ) → (Fin B → Fin C → ℝ)
  sampleAt : ℝ → (Fin B → Fin dim → ℝ)

/-- The training objective selected by the `step` closure (train.py lines
207-235): with class conditioning, the likelihood objective `compute_loss_y`
on the forward pass, at the hard-coded `multi_class = False` (line 170) and
the default reduction `"mean"`; without it, the energy objective
`compute_loss_energy` between the data batch `x` and a batch sampled from the
reverse pass at temperature `3e-1`, bound into the dict with keys
`"total_loss"` and `"loss_energy"`. The stray token `ff` ending line 224 is
a syntax slip in the source and is dropped from the model. -/
noncomputable def stepObjective {B C dim : ℕ} [NeZero C] (m : GlowModel B C dim)
    (y_condition : Bool) (y_weight : ℝ) (x : Fin B → Fin dim → ℝ)
    (y : Fin B → Fin C → ℝ) : Except PyErr Losses :=
  if y_condition then
    compute_loss_y (m.nllOf x y) (m.logitsOf x y) y_weight y false "mean"
  else do
    let x_pred := m.sampleAt (3 / 10)
    let loss_energy ← compute_loss_energy x x_pred defaultSigma "mean"
    pure [("total_loss", loss_energy), ("loss_energy", loss_energy)]

/-- C6: with class conditioning enabled the training objective is the
likelihood objective, whose `total_loss` is
`mean(nll) + y_weight * cross_entropy(y_logits, argmax(y))`; with it disabled
the objective is the MMD energy loss between the data batch and a batch
sampled from the model at temperature `0.3`, stored under both
`"total_loss"` and `"loss_energy"`. -/
theorem stepObjective_selects {B C dim : ℕ} (m : GlowModel B (C + 1) dim)
    (y_weight : ℝ) (x : Fin B → Fin dim → ℝ) (y : Fin B → Fin (C + 1) → ℝ) :
    (∃ ls, stepObjective m true y_weight x y = Except.ok ls ∧
        ls.lookup "total_loss" = some (Tensor.scalar (torchMean (m.nllOf x y) +
          y_weight *
            torchMean (crossEntropyRow (m.logitsOf x y) (torchArgmax y))))) ∧
    (stepObjective m false y_weight x y =
      Except.ok
        [("total_loss", Tensor.scalar (Real.sqrt
            (torchMean (energyLossVec x (m.sampleAt (3 / 10)) defaultSigma)
              + 1 / 100000))),
         ("loss_energy", Tensor.scalar (Real.sqrt
            (torchMean (energyLossVec x (m.sampleAt (3 / 10)) defaultSigma)
              + 1 / 100000)))]) := by
  constructor
  · refine ⟨_, rfl, ?_⟩
    simp [stepObjective, compute_loss_y, F_cross_entropy, tensorAdd, tensorSMul,
      List.lookup]
  · simp [stepObjective, compute_loss_energy, Except.map, Tensor.map]

/-- A concrete one-entry vector of zeros, used by counterexamples. -/
noncomputable def zeroVec : Fin 1 → ℝ := fun _ => 0

/-- C8 counterexample: at a concrete input with the reduction string
`"batchmean"` — outside every accepted set — `compute_loss_y` does not fail
with the unbound-variable error the claim states for it: the inner
cross-entropy library call validates the reduction string first and raises
`ValueError`. -/
theorem compute_loss_y_valueError_counterexample :
    compute_loss_y zeroVec zeroBatch 0 zeroBatch false "batchmean"
        = Except.error PyErr.valueError ∧
      PyErr.valueError ≠ PyErr.unboundLocalError := by
  constructor
  · simp [compute_loss_y, F_cross_entropy, except_bind_error, except_bind_ok,
      except_throw]
  · decide

/-- C8 (amended): for a reduction outside "mean"/"sum"/"none",
`compute_loss_energy` raises `ValueError`. For a reduction outside
"mean"/"none", `compute_loss` always fails with the unbound-variable error
(`losses` is never assigned). `compute_loss_y` fails with the
unbound-variable error for the library-accepted reduction `"sum"`, but for a
reduction outside "mean"/"sum"/"none" its inner classification-loss library
call raises `ValueError` first. -/
theorem reduction_error_behaviour {N M d B C : ℕ}
    (x : Fin M → Fin d → ℝ) (gen_x : Fin N → Fin d → ℝ) (sigma : List ℝ)
    (nll : Fin B → ℝ) (y_logits : Fin B → Fin (C + 1) → ℝ) (y_weight : ℝ)
    (y : Fin B → Fin (C + 1) → ℝ) (multiClass : Bool) :
    (∀ red, red ∉ (["mean", "sum", "none"] : List String) →
      compute_loss_energy x gen_x sigma red = Except.error PyErr.valueError) ∧
    (∀ red, red ∉ (["mean", "none"] : List String) →
      compute_loss nll red = Except.error PyErr.unboundLocalError) ∧
    compute_loss_y nll y_logits y_weight y multiClass "sum"
        = Except.error PyErr.unboundLocalError ∧
    (∀ red, red ∉ (["mean", "sum", "none"] : List String) →
      compute_loss_y nll y_logits y_weight y multiClass red
        = Except.error PyErr.valueError) := by
  refine ⟨fun red hred => ?_, fun red hred => ?_, ?_, fun red hred => ?_⟩
  · simp only [List.mem_cons, List.not_mem_nil, or_false, not_or] at hred
    obtain ⟨h1, h2, h3⟩ := hred
    simp [compute_loss_energy, h1, h2, h3, except_map_error, Except.map]
  · simp only [List.mem_cons, List.not_mem_nil, or_false, not_or] at hred
    obtain ⟨h1, h2⟩ := hred
    simp [compute_loss, h1, h2]
  · cases multiClass <;>
      simp [compute_loss_y, F_cross_entropy, F_binary_cross_entropy_with_logits,
        except_bind_error, except_bind_ok, except_throw]
  · simp only [List.mem_cons, List.not_mem_nil, or_false, not_or] at hred
    obtain ⟨h1, h2, h3⟩ := hred
    cases multiClass <;>
      simp [compute_loss_y, F_cross_entropy, F_binary_cross_entropy_with_logits,
        h1, h2, h3, except_bind_error, except_bind_ok, except_throw]

/-- The two random-number-generator seeds `check_manual_seed` sets
(`random.seed` and `torch.manual_seed`). -/
structure RngState where
  pythonSeed : ℤ
  torchSeed : ℤ
  deriving DecidableEq, Repr

/-- The CLI default for `--seed` (train.py line 517). -/
def cliDefaultSeed : ℤ := 0

/-- Model of `check_manual_seed` (train.py lines 23-28):
`seed = seed or random.randint(1, 10000)` keeps `seed` only when it is truthy
as a Python value (a non-zero integer); for `None` or `0` the freshly drawn
`fresh` replaces it. Both generators are then seeded with the result. -/
def check_manual_seed (seed : Option ℤ) (fresh : ℤ) : RngState :=
  let s :=
    match seed with
    | none => fresh
    | some v => if v = 0 then fresh else v
  { pythonSeed := s, torchSeed := s }

/-- C9: `check_manual_seed` seeds both generators with the given seed only
when it is truthy; for seed `0` (the CLI default) or `None` the freshly drawn
seed from `[1, 10000]` is used instead, and two runs with seed `0` that draw
different fresh seeds are seeded differently, so seed `0` does not give
reproducible runs. -/
theorem check_manual_seed_spec :
    (∀ s : ℤ, s ≠ 0 → ∀ fresh : ℤ,
        check_manual_seed (some s) fresh = ⟨s, s⟩) ∧
    (∀ fresh : ℤ,
        check_manual_seed (some cliDefaultSeed) fresh = ⟨fresh, fresh⟩) ∧
    (∀ fresh : ℤ, check_manual_seed none fresh = ⟨fresh, fresh⟩) ∧
    (∃ f₁ f₂ : ℤ, 1 ≤ f₁ ∧ f₁ ≤ 10000 ∧ 1 ≤ f₂ ∧ f₂ ≤ 10000 ∧
      check_manual_seed (some cliDefaultSeed) f₁
        ≠ check_manual_seed (some cliDefaultSeed) f₂) := by
  refine ⟨fun s hs fresh => ?_, fun fresh => ?_, fun fresh => rfl,
    1, 2, by decide, by decide, by decide, by decide, by decide⟩
  · simp [check_manual_seed, hs]
  · simp [check_manual_seed, cliDefaultSeed]

/-- The state of the CLI output path on disk when the script starts. -/
inductive PathState : Type where
  | absent
  | dir (entries : ℕ)
  | file
  deriving DecidableEq, Repr

/-- Model of the output-directory validation of the CLI entry point (train.py
lines 521-532). `os.makedirs` raises `FileExistsError` when anything exists
at the path; under `--fresh`, `shutil.rmtree` removes an existing directory
and it is recreated empty, but `rmtree` raises `NotADirectoryError` on a
non-directory path; finally a path that is not now an empty directory raises
`FileExistsError`. Returns the directory state training proceeds with. -/
def validateOutputDir (st : PathState) (fresh : Bool) : Except PyErr PathState :=
  match st with
  | .absent => .ok (.dir 0)
  | .file =>
      if fresh then .error .notADirectoryError
      else .error .fileExistsError
  | .dir n =>
      if fresh then .ok (.dir 0)
      else if n = 0 then .ok (.dir 0)
      else .error .fileExistsError

/-- Validation proceeds past the output-directory check (no exception). -/
def proceedsB (st : PathState) (fresh : Bool) : Bool :=
  match validateOutputDir st fresh with
  | .ok _ => true
  | .error _ => false

/-- The proceed condition C4 states: the path does not exist, is an empty
directory, or the `--fresh` flag was passed. -/
def claimedProceedCond (st : PathState) (fresh : Bool) : Prop :=
  st = .absent ∨ st = .dir 0 ∨ fresh = true

/-- C4 counterexample: when the output path exists as a non-directory file
and `--fresh` is passed, the claimed condition holds, yet validation does not
proceed: `shutil.rmtree` raises `NotADirectoryError` (and not the
`FileExistsError` the claim allows). -/
theorem validateOutputDir_fresh_file_counterexample :
    validateOutputDir PathState.file true
        = Except.error PyErr.notADirectoryError ∧
    proceedsB PathState.file true = false ∧
    claimedProceedCond PathState.file true :=
  ⟨rfl, rfl, Or.inr (Or.inr rfl)⟩

/-- C4 (amended): validation proceeds iff the path is absent, an empty
directory, or `--fresh` was passed and the path is a directory (possibly
absent); with `--fresh` on an existing non-directory it raises
`NotADirectoryError` from `shutil.rmtree`; and `FileExistsError` is raised
exactly in the remaining cases, those where the claimed condition fails. -/
theorem validateOutputDir_amended (st : PathState) (fresh : Bool) :
    (proceedsB st fresh = true ↔
      (st = .absent ∨ st = .dir 0 ∨ (fresh = true ∧ st ≠ .file))) ∧
    (validateOutputDir st fresh = .error .notADirectoryError ↔
      st = .file ∧ fresh = true) ∧
    (validateOutputDir st fresh = .error .fileExistsError ↔
      ¬ claimedProceedCond st fresh) := by
  rcases st with _ | n | _
  · cases fresh <;> simp [proceedsB, validateOutputDir, claimedProceedCond]
  · rcases Nat.eq_zero_or_pos n with rfl | hn
    · cases fresh <;> simp [proceedsB, validateOutputDir, claimedProceedCond]
    · cases fresh <;>
        simp [proceedsB, validateOutputDir, claimedProceedCond, hn.ne']
  · cases fresh <;> simp [proceedsB, validateOutputDir, claimedProceedCond]

/-- One checkpoint written by the `EPOCH_COMPLETED` handler: the epoch it was
written at together with the model state and the optimizer state it holds
(the handler is registered with both objects, train.py lines 266-270). -/
structure Checkpoint (Model Optim : Type) : Type where
  epoch : ℕ
  model : Model
  optimizer : Optim

/-- One save of the ignite `ModelCheckpoint` handler configured with
`n_saved = 2` (train.py lines 262-264). The handler itself is library code
outside the repository: per its documented `n_saved` contract — the spec
restates it as checkpoints "rotated to keep the two most recent" — a save
stores the new checkpoint and drops all but the two most recent. The list is
most recent first. -/
def checkpointSave {Model Optim : Type} (saved : List (Checkpoint Model Optim))
    (c : Checkpoint Model Optim) : List (Checkpoint Model Optim) :=
  (c :: saved).take 2

/-- The checkpoints on disk (most recent first) after `e` completed epochs:
the handler fires at every `EPOCH_COMPLETED` with
`{"model": model, "optimizer": optimizer}` (train.py lines 266-270), where
`modelAt e` and `optimAt e` are the states when epoch `e` completes. -/
def checkpointsAfter {Model Optim : Type} (modelAt : ℕ → Model)
    (optimAt : ℕ → Optim) : ℕ → List (Checkpoint Model Optim)
  | 0 => []
  | e + 1 => checkpointSave (checkpointsAfter modelAt optimAt e)
      ⟨e + 1, modelAt (e + 1), optimAt (e + 1)⟩

/-- C5: after every completed epoch the newest checkpoint on disk holds that
epoch's model and optimizer states, at every point at most two checkpoints
are retained, and from the second epoch on the disk holds exactly the
checkpoints of the two most recent epochs. -/
theorem checkpoint_rotation {Model Optim : Type} (modelAt : ℕ → Model)
    (optimAt : ℕ → Optim) :
    (∀ e, (checkpointsAfter modelAt optimAt e).length ≤ 2) ∧
    (∀ e, (checkpointsAfter modelAt optimAt (e + 1)).head?
        = some ⟨e + 1, modelAt (e + 1), optimAt (e + 1)⟩) ∧
    (∀ e, checkpointsAfter modelAt optimAt (e + 2)
        = [⟨e + 2, modelAt (e + 2), optimAt (e + 2)⟩,
           ⟨e + 1, modelAt (e + 1), optimAt (e + 1)⟩]) := by
  refine ⟨fun e => ?_, fun e => ?_, fun e => ?_⟩
  · cases e with
    | zero => simp [checkpointsAfter]
    | succ e => simp [checkpointsAfter, checkpointSave, List.length_take]
  · simp [checkpointsAfter, checkpointSave]
  · simp [checkpointsAfter, checkpointSave, List.take_succ_cons]

end GlowTrain
